import Mathlib

/-!
Verification of the decompilation pipeline and the handlebars report
generator of the `super` repository, against their natural-language
specification.

The Rust sources are shallowly embedded:

* `src/decompilation.rs` — the pipeline stages `decompress`, `extract_dex`
  (with its `dex_to_jar` sub-step) and `decompile`.  Filesystem state is a
  finite set of paths (a path is its list of components); external tools
  are an oracle from the concrete command invocation to a success bit, and
  on success a tool is assumed to create its output path.  In-process
  reads and writes that can only fail through I/O nondeterminism are
  modelled as succeeding; every `print_error` followed by
  `exit(Error::Unknown)` becomes a `fatal := true` result, and console
  narration becomes a list of message strings.

* `src/results/report/handlebars.rs` — the recursive tree mirror
  `generate_code_html_folder` (here `genFolder` / `genForest` / `genTree`),
  the per-file renderer `generate_code_html_for`, and the asset-copy loop
  of `Report::generate`.  The source directory tree is an inductive tree,
  the mirrored output is again a finite set of paths rooted at the
  `src` output directory, and the JSON menu values become the inductive
  `MenuValue` type.
-/

/-- A filesystem path, as its list of components. -/
abbrev Fpath := List String

/-- A filesystem: the finite set of paths that exist. -/
abbrev FS := Finset Fpath

/-!  ## Pipeline model (`src/decompilation.rs`)  -/

/-- The configuration fields read by the pipeline stages.  `force`,
`verbose` and `quiet` are the CLI flags; the remaining fields model the
path getters of `Config` used in `decompilation.rs`. -/
structure Config where
  force : Bool
  verbose : Bool
  quiet : Bool
  distFolder : Fpath
  resultsFolder : Fpath
  downloadsFolder : Fpath
  apktoolFile : Fpath
  dex2jarFolder : Fpath
  jdCmdFile : Fpath

/-- The per-package workspace `config.get_dist_folder().join(package)`. -/
def Config.wsPath (c : Config) (pkg : String) : Fpath :=
  c.distFolder ++ [pkg]

/-- The input artifact `config.get_apk_file(package)`. -/
def Config.apkFile (c : Config) (pkg : String) : Fpath :=
  c.downloadsFolder ++ [pkg ++ ".apk"]

/-- One external tool invocation, with the concrete argument paths that
`decompilation.rs` builds for it. -/
inductive Invocation where
  | apktool (toolJar : Fpath) (outPath : Fpath) (apkFile : Fpath)
  | dex2jar (script : Fpath) (dexFile : Fpath) (outJar : Fpath)
  | jdCmd (toolJar : Fpath) (jarFile : Fpath) (outDir : Fpath)
deriving DecidableEq, Repr

/-- The observable outcome of one pipeline stage: the filesystem after the
stage, the external invocations it performed, the paths it created or
removed, the benchmark labels it pushed, its console narration, and
whether it ended in `print_error` + `exit(Error::Unknown)`. -/
structure StageOut where
  fs : FS
  invs : List Invocation
  touched : List Fpath
  benchmarks : List String
  msgs : List String
  fatal : Bool

/-- Everything in a `StageOut` except the console narration. -/
def StageOut.data (s : StageOut) : FS × List Invocation × List Fpath × List String × Bool :=
  (s.fs, s.invs, s.touched, s.benchmarks, s.fatal)

/-- The zip archive: its entries, each a name with its byte content. -/
abbrev Archive := List (String × List Nat)

/-- Entry lookup `zip.by_name(name)`: a case-sensitive exact match on the
entry name. -/
def byName (a : Archive) (n : String) : Option (List Nat) :=
  (a.find? (fun e => e.1 = n)).map (fun e => e.2)

/-- The archive entry extraction of `extract_dex` (lines 118–163 of
`decompilation.rs`): locate the named entry with `by_name`; only once it
has been found is the destination file created with `File::create` and the
entry bytes written into it.  `none` is the entry-not-found failure (the
code prints the error and exits before `File::create` runs); reads and
writes of a located entry are modelled as succeeding. -/
def extractEntry (a : Archive) (n : String) (dest : Fpath) (fs : FS) : Option FS :=
  match byName a n with
  | none => none
  | some _bytes => some (insert dest fs)

/-- Stage 1, `decompress` (lines 17–84): if the workspace does not exist
or force is set, remove a stale workspace if present (failure there is
only a warning; removal is modelled as succeeding), then run _Apktool_
with `d -s -o <workspace> -f <apk>`; otherwise skip. -/
def decompress (oracle : Invocation → Bool) (c : Config) (pkg : String) (fs : FS) :
    StageOut :=
  let path := c.wsPath pkg
  if path ∉ fs ∨ c.force = true then
    let fs1 := if path ∈ fs then fs.filter (fun q => ¬ path <+: q) else fs
    let t1 : List Fpath := if path ∈ fs then [path] else []
    let m1 : List String :=
      if path ∈ fs ∧ c.verbose = true then
        ["The application decompression folder exists. But no more…"]
      else []
    let m2 : List String := if c.verbose = true then ["Decompressing the application…"] else []
    let inv := Invocation.apktool c.apktoolFile path (c.apkFile pkg)
    if oracle inv then
      { fs := insert path fs1
        invs := [inv]
        touched := t1 ++ [path]
        benchmarks := []
        msgs := m1 ++ m2 ++
          (if c.verbose = true then ["The application has been decompressed."]
           else if c.quiet = false then ["Application decompressed."] else [])
        fatal := false }
    else
      { fs := fs1
        invs := [inv]
        touched := t1
        benchmarks := []
        msgs := m1 ++ m2 ++ ["The decompression command returned an error."]
        fatal := true }
  else
    { fs := fs
      invs := []
      touched := []
      benchmarks := []
      msgs :=
        if c.verbose = true then
          ["Seems that the application has already been decompressed. There is no need to do it again."]
        else []
      fatal := false }

/-- The `dex_to_jar` sub-step (lines 194–245): run the _Dex2jar_ script on
`<workspace>/classes.dex` with `-o <workspace>/classes.jar`.  The model
uses the unix script name. -/
def dex_to_jar (oracle : Invocation → Bool) (c : Config) (pkg : String) (fs : FS) :
    StageOut :=
  let classes := c.wsPath pkg ++ ["classes.jar"]
  let inv := Invocation.dex2jar (c.dex2jarFolder ++ ["d2j-dex2jar.sh"])
    (c.wsPath pkg ++ ["classes.dex"]) classes
  if oracle inv then
    { fs := insert classes fs
      invs := [inv]
      touched := [classes]
      benchmarks := []
      msgs :=
        if c.verbose = true then ["The application .jar file has been generated."]
        else if c.quiet = false then ["Jar file generated."] else []
      fatal := false }
  else
    { fs := fs
      invs := [inv]
      touched := []
      benchmarks := []
      msgs := ["The .dex to .jar conversion command returned an error."]
      fatal := true }

/-- Stage 2, `extract_dex` (lines 87–191): if force is set or the
workspace path `get_dist_folder().join(package)` does not exist, open the
apk (`apk = none` models an unreadable or invalid archive), extract the
`classes.dex` entry into the workspace, push the "Dex extraction"
benchmark, convert it with `dex_to_jar`, and push the
"Dex to Jar decompilation" benchmark; otherwise skip. -/
def extract_dex (oracle : Invocation → Bool) (c : Config) (pkg : String)
    (apk : Option Archive) (fs : FS) : StageOut :=
  if c.force = true ∨ c.wsPath pkg ∉ fs then
    let m0 : List String :=
      if c.verbose = true then ["To decompile the app, first we need to extract the .dex file."]
      else []
    match apk with
    | none =>
      { fs := fs, invs := [], touched := [], benchmarks := []
        msgs := m0 ++ ["There was an error when decompressing the .apk file."]
        fatal := true }
    | some a =>
      let dexPath := c.wsPath pkg ++ ["classes.dex"]
      match extractEntry a "classes.dex" dexPath fs with
      | none =>
        { fs := fs, invs := [], touched := [], benchmarks := []
          msgs := m0 ++ ["There was an error while finding the classes.dex file inside the .apk file."]
          fatal := true }
      | some fs1 =>
        let m1 : List String :=
          if c.verbose = true then
            ["The .dex file was extracted successfully!",
             "Now it is time to create the .jar file from its classes."]
          else if c.quiet = false then ["Dex file extracted."] else []
        let d := dex_to_jar oracle c pkg fs1
        { fs := d.fs
          invs := d.invs
          touched := dexPath :: d.touched
          benchmarks := "Dex extraction" ::
            (if d.fatal then [] else ["Dex to Jar decompilation"])
          msgs := m0 ++ m1 ++ d.msgs
          fatal := d.fatal }
  else
    { fs := fs, invs := [], touched := [], benchmarks := []
      msgs :=
        if c.verbose = true then
          ["Seems that there is already a .jar file for the application. There is no need to create it again."]
        else []
      fatal := false }

/-- Stage 3, `decompile` (lines 248–290): if force is set or
`<workspace>/classes` does not exist, run _jd\_cmd_ on
`<workspace>/classes.jar` with `-od <workspace>/classes`; otherwise
skip. -/
def decompile (oracle : Invocation → Bool) (c : Config) (pkg : String) (fs : FS) :
    StageOut :=
  let outPath := c.wsPath pkg ++ ["classes"]
  if c.force = true ∨ outPath ∉ fs then
    let inv := Invocation.jdCmd c.jdCmdFile (c.wsPath pkg ++ ["classes.jar"]) outPath
    if oracle inv then
      { fs := insert outPath fs
        invs := [inv]
        touched := [outPath]
        benchmarks := []
        msgs :=
          if c.verbose = true then ["The application has been succesfully decompiled!"]
          else if c.quiet = false then ["Application decompiled."] else []
        fatal := false }
    else
      { fs := fs
        invs := [inv]
        touched := []
        benchmarks := []
        msgs := ["The decompilation command returned an error."]
        fatal := true }
  else
    { fs := fs, invs := [], touched := [], benchmarks := []
      msgs :=
        if c.verbose = true then
          ["Seems that there is already a source folder for the application. There is no need to decompile it again."]
        else []
      fatal := false }

/-- Sequencing of two pipeline steps: a fatal step ends the run (the Rust
code exits the process), otherwise the next step runs on the resulting
filesystem and the observations are concatenated. -/
def seqStage (a : StageOut) (f : FS → StageOut) : StageOut :=
  if a.fatal then a
  else
    let b := f a.fs
    { fs := b.fs
      invs := a.invs ++ b.invs
      touched := a.touched ++ b.touched
      benchmarks := a.benchmarks ++ b.benchmarks
      msgs := a.msgs ++ b.msgs
      fatal := b.fatal }

/-- The full pipeline in its fixed order:
`decompress` → `extract_dex` (with `dex_to_jar`) → `decompile`. -/
def runPipeline (oracle : Invocation → Bool) (c : Config) (pkg : String)
    (apk : Option Archive) (fs : FS) : StageOut :=
  seqStage (seqStage (decompress oracle c pkg fs) (extract_dex oracle c pkg apk))
    (decompile oracle c pkg)

/-- A concrete configuration with force disabled. -/
def cfgFresh : Config :=
  { force := false, verbose := false, quiet := false
    distFolder := ["dist"], resultsFolder := ["results"], downloadsFolder := ["downloads"]
    apktoolFile := ["apktool.jar"], dex2jarFolder := ["dex2jar"], jdCmdFile := ["jd-cmd.jar"] }

/-- The concrete configuration with force enabled. -/
def cfgForce : Config := { cfgFresh with force := true }

/-- A concrete well-formed apk archive holding a `classes.dex` entry. -/
def apkFresh : Archive := [("classes.dex", [0])]

/-- An oracle under which every external tool succeeds. -/
def okOracle : Invocation → Bool := fun _ => true

/-!  ## Report generator model (`src/results/report/handlebars.rs`)  -/

/-- Rust `Path::extension()` applied to a file name: `none` when the name
holds no dot or when its only dot is the leading character; otherwise the
portion of the name after the final dot. -/
def rustExtension (name : String) : Option String :=
  match (name.toList.reverse.span (fun ch => ch ≠ '.')).2 with
  | [] => none
  | ['.'] => none
  | _ => some ⟨(name.toList.reverse.span (fun ch => ch ≠ '.')).1.reverse⟩

/-- A source directory tree under the decompiled workspace: a regular file
with its text content, or a directory with its children in directory
iteration order. -/
inductive FsTree where
  | file (name : String) (content : String)
  | dir (name : String) (children : List FsTree)

/-- One JSON value of the menu array built by
`generate_code_html_folder`: a file object with its `name`, `path`
(source-relative, kept as components) and `type` (extension) fields, or a
directory object with its `name` and `menu` fields. -/
inductive MenuValue where
  | fileEntry (name : String) (path : Fpath) (ext : String)
  | dirEntry (name : String) (children : List MenuValue)

/-- The relative paths excluded at the top of
`generate_code_html_folder`. -/
def exclusionRules : List Fpath :=
  [["classes", "android"], ["classes", "com", "google", "android", "gms"], ["smali"]]

/-- The output name of a rendered source file: the source name with
`.html` appended. -/
def htmlName (n : String) : String := n ++ ".html"

/-- The name of the output filesystem object an entry would produce at
its own directory level: the directory name itself, or the rendered
`.html` name of a file. -/
def entryOutName : FsTree → String
  | .file n _ => htmlName n
  | .dir n _ => n

mutual

/-- One loop iteration of `generate_code_html_folder` (lines 144–194),
for the entry `t` of the source directory at relative path `p`, acting on
the output filesystem `out` (paths relative to the `src` output root):
a subdirectory whose relative path is `original` is skipped outright; any
other subdirectory is recursed into — exclusion check first, then the
mirrored output directory is created — and if the recursion returns an
empty menu the just-created output subdirectory is removed again (if it
exists) instead of adding a menu entry; a regular file is rendered to
`<path>.html` and listed iff its extension is exactly `xml` or `java`. -/
def genTree (p : Fpath) (t : FsTree) (out : FS) : List MenuValue × FS :=
  match t with
  | .dir name children =>
    let stripped := p ++ [name]
    if stripped = ["original"] then ([], out)
    else
      let inner :=
        if stripped ∈ exclusionRules then ([], out)
        else genForest stripped children (insert stripped out)
      if inner.1.isEmpty then
        let out2 :=
          if stripped ∈ inner.2 then inner.2.filter (fun q => ¬ stripped <+: q)
          else inner.2
        ([], out2)
      else ([MenuValue.dirEntry name inner.1], inner.2)
  | .file name _content =>
    match rustExtension name with
    | some e =>
      if e = "xml" ∨ e = "java" then
        ([MenuValue.fileEntry name (p ++ [name]) e], insert (p ++ [htmlName name]) out)
      else ([], out)
    | none => ([], out)

/-- The entry loop of `generate_code_html_folder` over the listed entries
of one source directory, threading the output filesystem and
concatenating the menu entries in iteration order. -/
def genForest (p : Fpath) (ts : List FsTree) (out : FS) : List MenuValue × FS :=
  match ts with
  | [] => ([], out)
  | t :: rest =>
    let r := genTree p t out
    let r2 := genForest p rest r.2
    (r.1 ++ r2.1, r2.2)

end

/-- `generate_code_html_folder` (lines 121–197) at relative path `p` over
the source directory entries `ts`: an excluded path returns an empty menu
at once, without creating anything or descending; otherwise the mirrored
output directory is created and the entries are processed. -/
def genFolder (p : Fpath) (ts : List FsTree) (out : FS) : List MenuValue × FS :=
  if p ∈ exclusionRules then ([], out)
  else genForest p ts (insert p out)

mutual

/-- The output paths a menu value accounts for, relative to the output
root its tree hangs from: a file entry accounts for its rendered page, a
directory entry for its mirrored directory and, below it, the paths of
its children. -/
def menuPaths (base : Fpath) : MenuValue → List Fpath
  | .fileEntry name _ _ => [base ++ [htmlName name]]
  | .dirEntry name ms => (base ++ [name]) :: menuPathsList (base ++ [name]) ms

/-- The output paths a menu list accounts for. -/
def menuPathsList (base : Fpath) : List MenuValue → List Fpath
  | [] => []
  | m :: ms => menuPaths base m ++ menuPathsList base ms

end

mutual

/-- No directory entry anywhere in the menu value has an empty child
list. -/
def noEmptyDir : MenuValue → Bool
  | .fileEntry _ _ _ => true
  | .dirEntry _ ms => !ms.isEmpty && noEmptyDirList ms

/-- No directory entry anywhere in the menu list has an empty child
list. -/
def noEmptyDirList : List MenuValue → Bool
  | [] => true
  | m :: ms => noEmptyDir m && noEmptyDirList ms

end

mutual

/-- Well-formedness of a source tree as a real directory listing: at
every level the output names the entries would produce are pairwise
distinct (directory listings cannot repeat a name, and no source name
may collide with a sibling rendered `.html` name). -/
def treeWf : FsTree → Bool
  | .file _ _ => true
  | .dir _ children => decide ((children.map entryOutName).Nodup) && allWf children

/-- Well-formedness of every tree in a list. -/
def allWf : List FsTree → Bool
  | [] => true
  | t :: rest => treeWf t && allWf rest

end

/-- Well-formedness of a source forest: distinct output names at the top
level and well-formed trees. -/
def forestWf (ts : List FsTree) : Bool :=
  decide ((ts.map entryOutName).Nodup) && allWf ts

/-- The back-path computed by `generate_code_html_for` (lines 223–226):
one `../` segment pushed per component of the file's source-relative
path. -/
def backPath (p : Fpath) : String :=
  p.foldl (fun acc _ => acc ++ "../") ""

/-- `n` parent-directory traversal segments. -/
def backSegs : Nat → String
  | 0 => ""
  | n + 1 => backSegs n ++ "../"

/-- The three named fields handed to the `code` template. -/
structure CodePageData where
  path : String
  code : String
  back_path : String

/-- `generate_code_html_for` (lines 200–239), as the data it renders the
`code` template with: the displayed relative path, the raw source text,
and the back-path prefix. -/
def generate_code_html_for (p : Fpath) (content : String) : CodePageData :=
  { path := String.intercalate "/" p
    code := content
    back_path := backPath p }

/-- One entry of the template directory, as seen by the asset-copy loop
of `Report::generate`. -/
inductive TEntry where
  | dir (name : String)
  | file (name : String)

/-- The asset-copy loop of `Report::generate` (lines 260–283), processed
in directory iteration order; returns the output paths it created and
whether it aborted.  A subdirectory is copied whole to
`results/<package>/<name>` by `copy_folder`; a file with the `hbs`
extension, or with no extension at all, is skipped; for any other file
the code calls `fs::copy` with
`config.results_folder().join(results.app_package())` — the package
output root itself, an existing directory, with no file name appended —
as the destination, so the copy fails and the `?` operator aborts the
loop: nothing is created for that file and the remaining entries are
never processed. -/
def copyAssets (base : Fpath) : List TEntry → FS × Bool
  | [] => (∅, false)
  | TEntry.dir n :: rest =>
    let r := copyAssets base rest
    (insert (base ++ [n]) r.1, r.2)
  | TEntry.file n :: rest =>
    match rustExtension n with
    | some e => if e = "hbs" then copyAssets base rest else (∅, true)
    | none => copyAssets base rest

/-- The observable outcome of `Report::generate`: the output filesystem
(absolute paths under the results root), the menu handed to the `src`
template, the console narration, and the failure bit. -/
structure ReportOut where
  fs : FS
  menu : List MenuValue
  msgs : List String
  fatal : Bool

/-- Everything in a `ReportOut` except the console narration. -/
def ReportOut.data (r : ReportOut) : FS × List MenuValue × Bool :=
  (r.fs, r.menu, r.fatal)

/-- `Report::generate` (lines 244–288) over the template directory
entries `tmpl` and the decompiled source forest `ts`: write the top-level
`index.html`, run the asset-copy loop, and — only when no copy failed —
mirror the source tree under `src` and write `src/index.html` from the
returned menu.  A failed `fs::copy` aborts generation with `index.html`
and the directories copied before it already on disk and no menu
delivered; renders and `copy_folder` are modelled as succeeding, and the
two `is_verbose` messages are the only narration. -/
def reportGenerate (c : Config) (pkg : String) (tmpl : List TEntry) (ts : List FsTree) :
    ReportOut :=
  let base := c.resultsFolder ++ [pkg]
  let ca := copyAssets base tmpl
  if ca.2 then
    { fs := insert (base ++ ["index.html"]) ca.1
      menu := []
      msgs :=
        if c.verbose = true then
          ["Starting HTML report generation. First we create the file.",
           "The report file has been created. Now it is time to fill it."]
        else []
      fatal := true }
  else
    let g := genFolder [] ts ∅
    { fs := insert (base ++ ["index.html"])
        ((ca.1 ∪ g.2.image (fun q => (base ++ ["src"]) ++ q)) ∪
          {base ++ ["src", "index.html"]})
      menu := g.1
      msgs :=
        if c.verbose = true then
          ["Starting HTML report generation. First we create the file.",
           "The report file has been created. Now it is time to fill it."]
        else []
      fatal := false }

/-- C1: on a fresh workspace with force disabled and every external tool
succeeding, the first full pipeline run invokes _Apktool_ and _jd\_cmd_
but never the dex-to-jar converter: `extract_dex` checks the workspace
root — the very path `decompress` just created — instead of a marker of
its own, so the ExtractBytecode stage is skipped on the first run, against
the claim that every stage runs once on a fresh workspace.  The second
run indeed performs no external tool invocations. -/
theorem c1_fresh_run_skips_extract_stage :
    (runPipeline okOracle cfgFresh "app" (some apkFresh) ∅).invs =
      [Invocation.apktool ["apktool.jar"] ["dist", "app"] ["downloads", "app.apk"],
       Invocation.jdCmd ["jd-cmd.jar"] ["dist", "app", "classes.jar"]
         ["dist", "app", "classes"]] ∧
    (runPipeline okOracle cfgFresh "app" (some apkFresh)
        (runPipeline okOracle cfgFresh "app" (some apkFresh) ∅).fs).invs = [] := by
  constructor <;> rfl

/-- C6: looking up an entry name absent from the archive makes the
extraction fail with the entry-not-found outcome and leaves the
filesystem unchanged — in particular no destination file is created —
and whenever the extraction does produce a filesystem, the entry had been
located and the only change is the created destination file. -/
theorem c6_entry_not_found_creates_nothing (a : Archive) (n : String) (dest : Fpath)
    (fs : FS) :
    (byName a n = none → extractEntry a n dest fs = none) ∧
    (∀ fs', extractEntry a n dest fs = some fs' →
      (∃ b, byName a n = some b) ∧ fs' = insert dest fs) := by
  constructor
  · intro h
    simp [extractEntry, h]
  · intro fs' h
    unfold extractEntry at h
    cases hb : byName a n with
    | none => rw [hb] at h; exact absurd h (by simp)
    | some b =>
      rw [hb] at h
      exact ⟨⟨b, rfl⟩, by simpa using h.symm⟩

/-- Witness for C6 at a concrete input: the archive holds only an entry
named `CLASSES.DEX`, so the case-sensitive lookup of `classes.dex` fails
and no destination file is created. -/
theorem c6_witness :
    extractEntry [("CLASSES.DEX", [0])] "classes.dex" ["dist", "app", "classes.dex"] ∅ =
      none :=
  (c6_entry_not_found_creates_nothing [("CLASSES.DEX", [0])] "classes.dex"
    ["dist", "app", "classes.dex"] ∅).1 (by decide)

/-- C7: with force enabled, the whole pipeline re-invokes every external
tool regardless of the filesystem state — _Apktool_, the dex-to-jar
converter and _jd\_cmd_ all appear in the invocation trace of a forced
run, for any prior completion markers, whenever the apk holds its
`classes.dex` entry and the tools succeed. -/
theorem c7_force_reinvokes_all_tools (oracle : Invocation → Bool) (c : Config)
    (pkg : String) (a : Archive) (fs : FS) (bytes : List Nat)
    (hf : c.force = true)
    (he : byName a "classes.dex" = some bytes)
    (ho : ∀ i, oracle i = true) :
    (runPipeline oracle c pkg (some a) fs).invs =
      [Invocation.apktool c.apktoolFile (c.wsPath pkg) (c.apkFile pkg),
       Invocation.dex2jar (c.dex2jarFolder ++ ["d2j-dex2jar.sh"])
         (c.wsPath pkg ++ ["classes.dex"]) (c.wsPath pkg ++ ["classes.jar"]),
       Invocation.jdCmd c.jdCmdFile (c.wsPath pkg ++ ["classes.jar"])
         (c.wsPath pkg ++ ["classes"])] := by
  simp [runPipeline, seqStage, decompress, extract_dex, dex_to_jar, decompile,
    extractEntry, hf, he, ho]

/-- Witness for C7: a forced run on an already fully populated workspace
still performs all three tool invocations. -/
theorem c7_witness :
    (runPipeline okOracle cfgForce "app" (some apkFresh)
        {["dist", "app"], ["dist", "app", "classes"]}).invs =
      [Invocation.apktool ["apktool.jar"] ["dist", "app"] ["downloads", "app.apk"],
       Invocation.dex2jar ["dex2jar", "d2j-dex2jar.sh"] ["dist", "app", "classes.dex"]
         ["dist", "app", "classes.jar"],
       Invocation.jdCmd ["jd-cmd.jar"] ["dist", "app", "classes.jar"]
         ["dist", "app", "classes"]] :=
  c7_force_reinvokes_all_tools okOracle cfgForce "app" apkFresh
    {["dist", "app"], ["dist", "app", "classes"]} [0] rfl (by decide) (fun _ => rfl)

/-- Every path `decompress` creates or removes lies under the workspace. -/
theorem decompress_touched_under_ws (o : Invocation → Bool) (c : Config) (pkg : String)
    (fs : FS) : ∀ p ∈ (decompress o c pkg fs).touched, c.wsPath pkg <+: p := by
  intro p hp
  simp only [decompress] at hp
  split_ifs at hp <;> simp at hp <;> simp [hp, List.prefix_refl]

/-- Every path `dex_to_jar` creates lies under the workspace. -/
theorem dex_to_jar_touched_under_ws (o : Invocation → Bool) (c : Config) (pkg : String)
    (fs : FS) : ∀ p ∈ (dex_to_jar o c pkg fs).touched, c.wsPath pkg <+: p := by
  intro p hp
  simp only [dex_to_jar] at hp
  split_ifs at hp <;> simp_all [List.prefix_append]

/-- Every path `extract_dex` creates lies under the workspace. -/
theorem extract_dex_touched_under_ws (o : Invocation → Bool) (c : Config) (pkg : String)
    (apk : Option Archive) (fs : FS) :
    ∀ p ∈ (extract_dex o c pkg apk fs).touched, c.wsPath pkg <+: p := by
  intro p hp
  simp only [extract_dex] at hp
  split_ifs at hp <;>
    first
    | (simp at hp; done)
    | (cases apk with
       | none => simp at hp
       | some a =>
         cases hx : extractEntry a "classes.dex" (c.wsPath pkg ++ ["classes.dex"]) fs with
         | none => simp [hx] at hp
         | some fs1 =>
           simp only [hx] at hp
           simp at hp
           rcases hp with hp | hp
           · rw [hp]; exact List.prefix_append _ _
           · exact dex_to_jar_touched_under_ws o c pkg fs1 p hp)

/-- Every path `decompile` creates lies under the workspace. -/
theorem decompile_touched_under_ws (o : Invocation → Bool) (c : Config) (pkg : String)
    (fs : FS) : ∀ p ∈ (decompile o c pkg fs).touched, c.wsPath pkg <+: p := by
  intro p hp
  simp only [decompile] at hp
  split_ifs at hp <;> simp_all [List.prefix_append]

/-- A property of all touched paths is preserved by sequencing. -/
theorem seqStage_touched_all (P : Fpath → Prop) (a : StageOut) (f : FS → StageOut)
    (ha : ∀ p ∈ a.touched, P p) (hf : ∀ fs, ∀ p ∈ (f fs).touched, P p) :
    ∀ p ∈ (seqStage a f).touched, P p := by
  intro p hp
  simp only [seqStage] at hp
  split_ifs at hp
  · exact ha p hp
  · simp only [List.mem_append] at hp
    rcases hp with hp | hp
    · exact ha p hp
    · exact hf a.fs p hp

/-- C9: every path the pipeline creates or removes lies under the
per-package workspace beneath the distribution root, and — as long as the
results root is not nested with the workspace — no touched path lies
under the output/results tree. -/
theorem c9_pipeline_touches_only_workspace (oracle : Invocation → Bool) (c : Config)
    (pkg : String) (apk : Option Archive) (fs : FS)
    (h1 : ¬ c.resultsFolder <+: c.wsPath pkg)
    (h2 : ¬ c.wsPath pkg <+: c.resultsFolder) :
    ∀ p ∈ (runPipeline oracle c pkg apk fs).touched,
      c.wsPath pkg <+: p ∧ ¬ c.resultsFolder <+: p := by
  have base : ∀ p ∈ (runPipeline oracle c pkg apk fs).touched, c.wsPath pkg <+: p := by
    apply seqStage_touched_all
    · apply seqStage_touched_all
      · exact decompress_touched_under_ws oracle c pkg fs
      · exact fun fs2 => extract_dex_touched_under_ws oracle c pkg apk fs2
    · exact fun fs2 => decompile_touched_under_ws oracle c pkg fs2
  intro p hp
  refine ⟨base p hp, fun hr => ?_⟩
  rcases List.prefix_or_prefix_of_prefix hr (base p hp) with h | h
  · exact h1 h
  · exact h2 h

/-- Witness for C9 at a concrete run: the workspace root itself is
touched by the fresh pipeline run, lies under the workspace, and not
under the results root. -/
theorem c9_witness :
    cfgFresh.wsPath "app" <+: ["dist", "app"] ∧
      ¬ cfgFresh.resultsFolder <+: ["dist", "app"] :=
  c9_pipeline_touches_only_workspace okOracle cfgFresh "app" (some apkFresh) ∅
    (by decide) (by decide) ["dist", "app"] (by decide)

/-- The non-narration outcome of `decompress` does not depend on the
verbosity and quiet flags. -/
theorem decompress_data_verbosity (o : Invocation → Bool) (fc vb qt vb2 qt2 : Bool)
    (df rf dl ap d2 jd : Fpath) (pkg : String) (fs : FS) :
    (decompress o ⟨fc, vb2, qt2, df, rf, dl, ap, d2, jd⟩ pkg fs).data =
      (decompress o ⟨fc, vb, qt, df, rf, dl, ap, d2, jd⟩ pkg fs).data := by
  simp only [decompress, Config.wsPath, Config.apkFile, StageOut.data]
  split_ifs <;> rfl

/-- The non-narration outcome of `dex_to_jar` does not depend on the
verbosity and quiet flags. -/
theorem dex_to_jar_data_verbosity (o : Invocation → Bool) (fc vb qt vb2 qt2 : Bool)
    (df rf dl ap d2 jd : Fpath) (pkg : String) (fs : FS) :
    (dex_to_jar o ⟨fc, vb2, qt2, df, rf, dl, ap, d2, jd⟩ pkg fs).data =
      (dex_to_jar o ⟨fc, vb, qt, df, rf, dl, ap, d2, jd⟩ pkg fs).data := by
  simp only [dex_to_jar, Config.wsPath, StageOut.data]
  split_ifs <;> rfl

/-- The non-narration outcome of `extract_dex` does not depend on the
verbosity and quiet flags. -/
theorem extract_dex_data_verbosity (o : Invocation → Bool) (fc vb qt vb2 qt2 : Bool)
    (df rf dl ap d2 jd : Fpath) (pkg : String) (apk : Option Archive) (fs : FS) :
    (extract_dex o ⟨fc, vb2, qt2, df, rf, dl, ap, d2, jd⟩ pkg apk fs).data =
      (extract_dex o ⟨fc, vb, qt, df, rf, dl, ap, d2, jd⟩ pkg apk fs).data := by
  have hd := dex_to_jar_data_verbosity o fc vb qt vb2 qt2 df rf dl ap d2 jd pkg
  simp only [extract_dex, Config.wsPath, StageOut.data] at *
  split_ifs <;>
    first
    | rfl
    | (cases apk with
       | none => rfl
       | some a =>
         cases hx : extractEntry a "classes.dex" ((df ++ [pkg]) ++ ["classes.dex"]) fs with
         | none => simp only [hx]
         | some fs1 =>
           simp only [hx]
           have := hd fs1
           simp only [Prod.mk.injEq] at this
           simp [this.1, this.2.1, this.2.2.1, this.2.2.2.1, this.2.2.2.2])

/-- The non-narration outcome of `decompile` does not depend on the
verbosity and quiet flags. -/
theorem decompile_data_verbosity (o : Invocation → Bool) (fc vb qt vb2 qt2 : Bool)
    (df rf dl ap d2 jd : Fpath) (pkg : String) (fs : FS) :
    (decompile o ⟨fc, vb2, qt2, df, rf, dl, ap, d2, jd⟩ pkg fs).data =
      (decompile o ⟨fc, vb, qt, df, rf, dl, ap, d2, jd⟩ pkg fs).data := by
  simp only [decompile, Config.wsPath, StageOut.data]
  split_ifs <;> rfl

/-- Sequencing respects equality of non-narration outcomes. -/
theorem seqStage_data_congr (a a2 : StageOut) (f f2 : FS → StageOut)
    (ha : a.data = a2.data) (hf : ∀ fs, (f fs).data = (f2 fs).data) :
    (seqStage a f).data = (seqStage a2 f2).data := by
  simp only [StageOut.data, Prod.mk.injEq] at ha
  obtain ⟨h1, h2, h3, h4, h5⟩ := ha
  simp only [seqStage, StageOut.data, h1, h2, h3, h4, h5]
  split_ifs
  · simp [h1, h2, h3, h4, h5]
  · have := hf a2.fs
    simp only [StageOut.data, Prod.mk.injEq] at this
    simp [this.1, this.2.1, this.2.2.1, this.2.2.2.1, this.2.2.2.2]

/-- One `../` is appended to the accumulator per path component. -/
theorem backPath_foldl (p : Fpath) (acc : String) :
    p.foldl (fun a _ => a ++ "../") acc = acc ++ backSegs p.length := by
  induction p generalizing acc with
  | nil => simp [backSegs, String.append_empty]
  | cons x xs ih =>
    have swap : ∀ n, "../" ++ backSegs n = backSegs n ++ "../" := by
      intro n
      induction n with
      | zero => simp [backSegs, String.append_empty, String.empty_append]
      | succ m ihm => simp only [backSegs, ← String.append_assoc, ihm]
    simp only [List.foldl_cons, ih, List.length_cons, backSegs, ← swap,
      String.append_assoc]

/-- C3 counterexample: the file `a/b/c/File.java` sits at relative depth
three, yet the back-path handed to the `code` template holds four
parent-directory segments, because the loop of `generate_code_html_for`
pushes one segment per component of the relative path, the file-name
component included. -/
theorem c3_counterexample_depth_three_file :
    (generate_code_html_for ["a", "b", "c", "File.java"] "class File").back_path =
        "../../../../" ∧
      (generate_code_html_for ["a", "b", "c", "File.java"] "class File").back_path ≠
        "../../../" := by
  constructor <;> decide

/-- C3 amended: the back-path handed to the `code` template holds exactly
one parent-directory segment per component of the file's source-relative
path, the file-name component included — a file at relative depth `d`
receives `d + 1` segments. -/
theorem c3_amended_one_segment_per_component (p : Fpath) (content : String) :
    (generate_code_html_for p content).back_path = backSegs p.length := by
  have h := backPath_foldl p ""
  simp only [String.empty_append] at h
  simpa [generate_code_html_for, backPath] using h

/-- C4: the asset-copy loop never copies a single file into the output
root.  A file with an extension other than `hbs` is selected for copying,
but `fs::copy` is handed the package output root itself — an existing
directory, with no file name appended — as the destination, so the copy
fails and report generation aborts: at a template directory listing
`favicon.ico` then the `css` subdirectory, generation ends fatally,
neither the asset file nor the later directory reaches the output, and
the source mirror is never produced.  A file with no extension at all is
moreover skipped outright by the `None` match arm, with generation
completing without it. -/
theorem c4_asset_copy_aborts_generation :
    (reportGenerate cfgFresh "app" [TEntry.file "favicon.ico", TEntry.dir "css"] []).fatal
        = true ∧
    ["results", "app", "favicon.ico"] ∉
      (reportGenerate cfgFresh "app" [TEntry.file "favicon.ico", TEntry.dir "css"] []).fs ∧
    ["results", "app", "css"] ∉
      (reportGenerate cfgFresh "app" [TEntry.file "favicon.ico", TEntry.dir "css"] []).fs ∧
    (reportGenerate cfgFresh "app" [TEntry.file "LICENSE"] []).fatal = false ∧
    ["results", "app", "LICENSE"] ∉
      (reportGenerate cfgFresh "app" [TEntry.file "LICENSE"] []).fs := by
  refine ⟨rfl, by decide, by decide, rfl, by decide⟩

/-- C5: a relative path matching an exclusion rule makes the tree-mirror
call return an empty menu immediately, with the output filesystem
untouched — no output directory, no rendered page, no menu node for it or
anything below it, whatever eligible descendants it has; likewise, a
subdirectory entry whose relative path is excluded contributes no menu
node and no output change at its parent level. -/
theorem c5_excluded_path_yields_nothing (p : Fpath) (ts : List FsTree) (out : FS)
    (hp : p ∈ exclusionRules) :
    genFolder p ts out = ([], out) ∧
    (∀ parent name children out2, parent ++ [name] = p → p ∉ out2 →
      genTree parent (FsTree.dir name children) out2 = ([], out2)) := by
  have hnotorig : p ≠ ["original"] := by
    simp only [exclusionRules, List.mem_cons, List.not_mem_nil, or_false] at hp
    rcases hp with h | h | h <;> (rw [h]; decide)
  constructor
  · simp [genFolder, hp]
  · intro parent name children out2 hstrip hout
    rw [genTree, hstrip]
    rw [if_neg hnotorig, if_pos hp]
    simp only [List.isEmpty_nil, if_pos rfl]
    simp [hout]

/-- Witness for C5: the excluded `smali` path, over a source tree holding
an eligible `.java` file, produces nothing. -/
theorem c5_witness :
    genFolder ["smali"] [FsTree.file "A.java" "class A"] ∅ = ([], ∅) :=
  (c5_excluded_path_yields_nothing ["smali"] [FsTree.file "A.java" "class A"] ∅
    (by decide)).1

/-- C10: a regular file encountered by the tree mirror is rendered and
listed iff its extension is exactly `xml` or exactly `java`
(case-sensitive, by Rust `OsStr` equality): then one page is created at
the relative path with `.html` appended and one file menu entry is added;
any other extension, and a missing extension, leave the menu and the
output filesystem untouched, with no error. -/
theorem c10_eligible_extensions_exactly_xml_java (p : Fpath) (name content : String)
    (out : FS) :
    genTree p (FsTree.file name content) out =
      if rustExtension name = some "xml" ∨ rustExtension name = some "java" then
        ([MenuValue.fileEntry name (p ++ [name]) ((rustExtension name).getD "")],
          insert (p ++ [htmlName name]) out)
      else ([], out) := by
  rw [genTree]
  cases hx : rustExtension name with
  | none => simp [hx]
  | some e =>
    simp only [hx]
    by_cases he : e = "xml" ∨ e = "java"
    · rw [if_pos he, if_pos (by simpa using he)]
      simp
    · rw [if_neg he, if_neg (by simpa using he)]

/-- The non-narration outcome of `Report::generate` does not depend on
the verbosity and quiet flags. -/
theorem reportGenerate_data_verbosity (fc vb qt vb2 qt2 : Bool)
    (df rf dl ap d2 jd : Fpath) (pkg : String) (tmpl : List TEntry) (ts : List FsTree) :
    (reportGenerate ⟨fc, vb2, qt2, df, rf, dl, ap, d2, jd⟩ pkg tmpl ts).data =
      (reportGenerate ⟨fc, vb, qt, df, rf, dl, ap, d2, jd⟩ pkg tmpl ts).data := by
  simp only [reportGenerate, ReportOut.data]
  split_ifs <;> rfl

/-- C8: two runs differing only in the verbosity and quiet flags perform
the same external tool invocations, touch and produce the same
filesystem, push the same benchmarks, build the same menu, and end with
the same success-or-failure outcome, for every pipeline stage and for the
report generator: the flags feed console narration only. -/
theorem c8_verbosity_and_quiet_affect_narration_only (oracle : Invocation → Bool)
    (c : Config) (pkg : String) (apk : Option Archive) (fs : FS) (v q : Bool)
    (tmpl : List TEntry) (ts : List FsTree) :
    (runPipeline oracle { c with verbose := v, quiet := q } pkg apk fs).data =
      (runPipeline oracle c pkg apk fs).data ∧
    (reportGenerate { c with verbose := v, quiet := q } pkg tmpl ts).data =
      (reportGenerate c pkg tmpl ts).data := by
  constructor
  · exact seqStage_data_congr _ _ _ _
      (seqStage_data_congr _ _ _ _
        (decompress_data_verbosity oracle c.force c.verbose c.quiet v q
          c.distFolder c.resultsFolder c.downloadsFolder c.apktoolFile
          c.dex2jarFolder c.jdCmdFile pkg fs)
        (fun fs2 => extract_dex_data_verbosity oracle c.force c.verbose c.quiet v q
          c.distFolder c.resultsFolder c.downloadsFolder c.apktoolFile
          c.dex2jarFolder c.jdCmdFile pkg apk fs2))
      (fun fs2 => decompile_data_verbosity oracle c.force c.verbose c.quiet v q
        c.distFolder c.resultsFolder c.downloadsFolder c.apktoolFile
        c.dex2jarFolder c.jdCmdFile pkg fs2)
  · exact reportGenerate_data_verbosity c.force c.verbose c.quiet v q
      c.distFolder c.resultsFolder c.downloadsFolder c.apktoolFile
      c.dex2jarFolder c.jdCmdFile pkg tmpl ts

/-- A strict one-component extension of a path is never a prefix of the
path itself. -/
theorem snoc_not_pre (l : Fpath) (a : String) : ¬ (l ++ [a] <+: l) := by
  intro h
  have := h.length_le
  simp at this

/-- If one one-component extension of a base path reaches into a subtree
rooted at another, the added components agree. -/
theorem append_singleton_pre_eq (p : Fpath) (a b : String) (s : Fpath)
    (h : p ++ [a] <+: (p ++ [b]) ++ s) : a = b := by
  rw [List.append_assoc, List.prefix_append_right_inj] at h
  exact (List.cons_prefix_cons.mp h).1

/-- The paths of a concatenated menu list. -/
theorem menuPathsList_append (base : Fpath) (ms1 ms2 : List MenuValue) :
    menuPathsList base (ms1 ++ ms2) =
      menuPathsList base ms1 ++ menuPathsList base ms2 := by
  induction ms1 with
  | nil => simp [menuPathsList]
  | cons m ms ih => simp [menuPathsList, ih]

/-- Empty-directory freedom of a concatenated menu list. -/
theorem noEmptyDirList_append (ms1 ms2 : List MenuValue) :
    noEmptyDirList (ms1 ++ ms2) = (noEmptyDirList ms1 && noEmptyDirList ms2) := by
  induction ms1 with
  | nil => simp [noEmptyDirList]
  | cons m ms ih => simp [noEmptyDirList, ih, Bool.and_assoc]

/-- Removing a freshly created directory from an output filesystem that
held nothing under it restores the original filesystem. -/
theorem filter_insert_out (stripped : Fpath) (out : FS)
    (hd : ∀ q ∈ out, ¬ stripped <+: q) :
    (insert stripped out).filter (fun q => ¬ stripped <+: q) = out := by
  ext q
  simp only [Finset.mem_filter, Finset.mem_insert]
  constructor
  · rintro ⟨hq | hq, hnp⟩
    · subst hq
      exact absurd (List.prefix_refl _) hnp
    · exact hq
  · intro hq
    exact ⟨Or.inr hq, hd q hq⟩

/-- Unfolding of the entry loop on a cons cell. -/
theorem genForest_cons_eq (p : Fpath) (t : FsTree) (rest : List FsTree) (out : FS) :
    genForest p (t :: rest) out =
      ((genTree p t out).1 ++ (genForest p rest (genTree p t out).2).1,
        (genForest p rest (genTree p t out).2).2) := rfl

/-- Unfolding of the entry loop on an empty listing. -/
theorem genForest_nil_eq (p : Fpath) (out : FS) : genForest p [] out = ([], out) := rfl

/-- A file with no extension is ignored. -/
theorem genTree_file_none (p : Fpath) (name content : String) (out : FS)
    (hx : rustExtension name = none) :
    genTree p (FsTree.file name content) out = ([], out) := by
  simp only [genTree, hx]

/-- An eligible file is rendered and listed. -/
theorem genTree_file_some_eligible (p : Fpath) (name content : String) (out : FS)
    (e : String) (hx : rustExtension name = some e) (he : e = "xml" ∨ e = "java") :
    genTree p (FsTree.file name content) out =
      ([MenuValue.fileEntry name (p ++ [name]) e], insert (p ++ [htmlName name]) out) := by
  simp only [genTree, hx, if_pos he]

/-- A file with an ineligible extension is ignored. -/
theorem genTree_file_some_ineligible (p : Fpath) (name content : String) (out : FS)
    (e : String) (hx : rustExtension name = some e) (he : ¬ (e = "xml" ∨ e = "java")) :
    genTree p (FsTree.file name content) out = ([], out) := by
  simp only [genTree, hx, if_neg he]

/-- The pristine-original-copy directory is skipped outright. -/
theorem genTree_dir_original (p : Fpath) (name : String) (children : List FsTree)
    (out : FS) (h : p ++ [name] = ["original"]) :
    genTree p (FsTree.dir name children) out = ([], out) := by
  simp only [genTree, if_pos h]

/-- An excluded subdirectory contributes nothing when the output held no
directory for it. -/
theorem genTree_dir_excluded (p : Fpath) (name : String) (children : List FsTree)
    (out : FS) (h1 : ¬ p ++ [name] = ["original"])
    (h2 : (p ++ [name]) ∈ exclusionRules) (h3 : (p ++ [name]) ∉ out) :
    genTree p (FsTree.dir name children) out = ([], out) := by
  simp only [genTree, if_neg h1, if_pos h2]
  simp [h3]

/-- A non-skipped subdirectory recurses and then either prunes or
attaches a directory entry. -/
theorem genTree_dir_run (p : Fpath) (name : String) (children : List FsTree) (out : FS)
    (h1 : ¬ p ++ [name] = ["original"]) (h2 : (p ++ [name]) ∉ exclusionRules) :
    genTree p (FsTree.dir name children) out =
      (let inner := genForest (p ++ [name]) children (insert (p ++ [name]) out)
       if inner.1.isEmpty then
         ([], if (p ++ [name]) ∈ inner.2 then
                inner.2.filter (fun q => ¬ (p ++ [name]) <+: q)
              else inner.2)
       else ([MenuValue.dirEntry name inner.1], inner.2)) := by
  simp only [genTree, if_neg h1, if_neg h2]

/-- The mirror invariant of the entry loop: starting from an output
filesystem holding nothing below the output name of any listed entry, the
loop returns the starting filesystem plus exactly the paths its menu
accounts for; the returned menu holds no empty directory entry; and every
path the menu accounts for sits at or below the output name of one of the
listed entries. -/
theorem genForest_mirror : ∀ (p : Fpath) (ts : List FsTree) (out : FS),
    (ts.map entryOutName).Nodup → allWf ts = true →
    (∀ q ∈ out, ∀ t ∈ ts, ¬ ((p ++ [entryOutName t]) <+: q)) →
    (genForest p ts out).2 = out ∪ (menuPathsList p (genForest p ts out).1).toFinset ∧
    noEmptyDirList (genForest p ts out).1 = true ∧
    (∀ q ∈ menuPathsList p (genForest p ts out).1,
      ∃ t ∈ ts, ∃ s, q = (p ++ [entryOutName t]) ++ s)
  | p, [], out, _, _, _ => by
    rw [genForest_nil_eq]
    exact ⟨by simp [menuPathsList], rfl, by simp [menuPathsList]⟩
  | p, t :: rest, out, hn, ha, hd => by
    rw [List.map_cons, List.nodup_cons] at hn
    obtain ⟨hnotin, hn2⟩ := hn
    rw [allWf, Bool.and_eq_true] at ha
    obtain ⟨hwt, ha2⟩ := ha
    have hdrest : ∀ q ∈ out, ∀ t2 ∈ rest, ¬ ((p ++ [entryOutName t2]) <+: q) :=
      fun q hq t2 ht2 => hd q hq t2 (List.mem_cons_of_mem _ ht2)
    have hdhead : ∀ q ∈ out, ¬ ((p ++ [entryOutName t]) <+: q) :=
      fun q hq => hd q hq t (List.mem_cons_self _ _)
    have step : ∀ (m1 : List MenuValue) (f1 : FS),
        genTree p t out = (m1, f1) →
        f1 = out ∪ (menuPathsList p m1).toFinset →
        noEmptyDirList m1 = true →
        (∀ q ∈ menuPathsList p m1, ∃ s, q = (p ++ [entryOutName t]) ++ s) →
        ((genForest p (t :: rest) out).2 =
            out ∪ (menuPathsList p (genForest p (t :: rest) out).1).toFinset ∧
          noEmptyDirList (genForest p (t :: rest) out).1 = true ∧
          (∀ q ∈ menuPathsList p (genForest p (t :: rest) out).1,
            ∃ t2 ∈ t :: rest, ∃ s, q = (p ++ [entryOutName t2]) ++ s)) := by
      intro m1 f1 hr hf1 hne1 hsh1
      have hdrest2 : ∀ q ∈ f1, ∀ t2 ∈ rest, ¬ ((p ++ [entryOutName t2]) <+: q) := by
        intro q hq t2 ht2 hpre
        rw [hf1, Finset.mem_union] at hq
        rcases hq with hq | hq
        · exact hdrest q hq t2 ht2 hpre
        · rw [List.mem_toFinset] at hq
          obtain ⟨s, hs⟩ := hsh1 q hq
          rw [hs] at hpre
          have heq := append_singleton_pre_eq p (entryOutName t2) (entryOutName t) s hpre
          exact hnotin (heq ▸ List.mem_map_of_mem entryOutName ht2)
      obtain ⟨e1, e2, e3⟩ := genForest_mirror p rest f1 hn2 ha2 hdrest2
      rw [genForest_cons_eq, hr]
      dsimp only
      refine ⟨?_, ?_, ?_⟩
      · rw [e1, hf1, menuPathsList_append, List.toFinset_append, Finset.union_assoc]
      · simp [noEmptyDirList_append, hne1, e2]
      · intro q hq
        rw [menuPathsList_append, List.mem_append] at hq
        rcases hq with hq | hq
        · obtain ⟨s, hs⟩ := hsh1 q hq
          exact ⟨t, List.mem_cons_self _ _, s, hs⟩
        · obtain ⟨t2, ht2, s, hs⟩ := e3 q hq
          exact ⟨t2, List.mem_cons_of_mem _ ht2, s, hs⟩
    cases t with
    | file name content =>
      cases hx : rustExtension name with
      | none =>
        exact step [] out (genTree_file_none p name content out hx)
          (by simp [menuPathsList]) rfl (by simp [menuPathsList])
      | some e =>
        by_cases he : e = "xml" ∨ e = "java"
        · apply step [MenuValue.fileEntry name (p ++ [name]) e]
            (insert (p ++ [htmlName name]) out)
            (genTree_file_some_eligible p name content out e hx he)
          · simp [menuPathsList, menuPaths, Finset.insert_eq, Finset.union_comm]
          · rfl
          · intro q hq
            simp only [menuPathsList, menuPaths, List.append_nil, List.mem_singleton] at hq
            exact ⟨[], by simp [hq, entryOutName]⟩
        · exact step [] out (genTree_file_some_ineligible p name content out e hx he)
            (by simp [menuPathsList]) rfl (by simp [menuPathsList])
    | dir name children =>
      by_cases horig : p ++ [name] = ["original"]
      · exact step [] out (genTree_dir_original p name children out horig)
          (by simp [menuPathsList]) rfl (by simp [menuPathsList])
      · by_cases hexc : (p ++ [name]) ∈ exclusionRules
        · have hnotout : (p ++ [name]) ∉ out := by
            intro hmem
            exact hdhead (p ++ [name]) hmem (List.prefix_refl _)
          exact step [] out (genTree_dir_excluded p name children out horig hexc hnotout)
            (by simp [menuPathsList]) rfl (by simp [menuPathsList])
        · rw [treeWf, Bool.and_eq_true, decide_eq_true_eq] at hwt
          obtain ⟨hnC, haC⟩ := hwt
          have hdC : ∀ q ∈ insert (p ++ [name]) out, ∀ c ∈ children,
              ¬ (((p ++ [name]) ++ [entryOutName c]) <+: q) := by
            intro q hq c hc hpre
            rw [Finset.mem_insert] at hq
            rcases hq with hq | hq
            · subst hq
              exact snoc_not_pre _ _ hpre
            · exact hdhead q hq
                (((List.prefix_append _ _).trans hpre))
          obtain ⟨c1, c2, c3⟩ :=
            genForest_mirror (p ++ [name]) children (insert (p ++ [name]) out) hnC haC hdC
          by_cases hie :
            (genForest (p ++ [name]) children (insert (p ++ [name]) out)).1.isEmpty
          · have hin1 : (genForest (p ++ [name]) children (insert (p ++ [name]) out)).1
                = [] := List.isEmpty_iff.mp hie
            have hif : (genForest (p ++ [name]) children (insert (p ++ [name]) out)).2
                = insert (p ++ [name]) out := by
              rw [c1, hin1]
              simp [menuPathsList]
            have hdout : ∀ q ∈ out, ¬ (p ++ [name]) <+: q := fun q hq => hdhead q hq
            have htr : genTree p (FsTree.dir name children) out = ([], out) := by
              rw [genTree_dir_run p name children out horig hexc]
              dsimp only
              rw [if_pos hie, hif]
              rw [if_pos (Finset.mem_insert_self _ _)]
              rw [filter_insert_out _ _ hdout]
            exact step [] out htr (by simp [menuPathsList]) rfl (by simp [menuPathsList])
          · have htr : genTree p (FsTree.dir name children) out =
                ([MenuValue.dirEntry name
                    (genForest (p ++ [name]) children (insert (p ++ [name]) out)).1],
                  (genForest (p ++ [name]) children (insert (p ++ [name]) out)).2) := by
              rw [genTree_dir_run p name children out horig hexc]
              dsimp only
              rw [if_neg hie]
            apply step _ _ htr
            · rw [c1]
              simp only [menuPathsList, menuPaths, List.append_nil, List.toFinset_cons]
              rw [Finset.insert_union, Finset.union_insert]
            · simp only [noEmptyDirList, noEmptyDir, Bool.and_true, Bool.and_eq_true,
                Bool.not_eq_true']
              exact ⟨by simpa using hie, c2⟩
            · intro q hq
              simp only [menuPathsList, menuPaths, List.append_nil, List.mem_cons] at hq
              rcases hq with hq | hq
              · exact ⟨[], by simp [hq, entryOutName]⟩
              · obtain ⟨c, hc, s, hs⟩ := c3 q hq
                exact ⟨[entryOutName c] ++ s, by
                  rw [hs, entryOutName, List.append_assoc]⟩

/-- C2: after the top-level tree-mirror call on a fresh output root, the
output filesystem is exactly the root directory plus the paths the
returned menu accounts for — every mirrored directory in the output is a
directory entry of the menu and vice versa, every rendered page is a file
entry and vice versa, so the menu tree is isomorphic to the non-empty
part of the output tree — and no directory entry anywhere in the menu has
an empty child list; a subdirectory whose recursive call returned an
empty menu has been deleted from the output again.  The hypothesis is
that the source listing is a real directory tree: sibling output names
are distinct at every level. -/
theorem c2_menu_isomorphic_to_output (ts : List FsTree) (hwf : forestWf ts = true) :
    (genFolder [] ts ∅).2 =
      insert [] ((menuPathsList [] (genFolder [] ts ∅).1).toFinset) ∧
    noEmptyDirList (genFolder [] ts ∅).1 = true := by
  rw [forestWf, Bool.and_eq_true, decide_eq_true_eq] at hwf
  obtain ⟨hn, ha⟩ := hwf
  have hd : ∀ q ∈ (insert ([] : Fpath) (∅ : FS)), ∀ t ∈ ts,
      ¬ (([] ++ [entryOutName t]) <+: q) := by
    intro q hq t ht hpre
    simp only [Finset.mem_insert, Finset.not_mem_empty, or_false] at hq
    subst hq
    have := hpre.length_le
    simp at this
  have hroot : ([] : Fpath) ∉ exclusionRules := by decide
  obtain ⟨e1, e2, e3⟩ := genForest_mirror [] ts (insert [] ∅) hn ha hd
  simp only [genFolder, if_neg hroot]
  refine ⟨?_, e2⟩
  rw [e1]
  ext q
  simp

/-- A concrete source tree exercising rendering, recursion, the
`original` skip rule, the `smali` exclusion rule and empty-subtree
pruning. -/
def tsDemo : List FsTree :=
  [FsTree.file "MainActivity.java" "class MainActivity",
   FsTree.dir "res" [FsTree.dir "layout" [FsTree.file "main.xml" "layout"]],
   FsTree.dir "original" [FsTree.file "AndroidManifest.xml" "manifest"],
   FsTree.dir "smali" [FsTree.file "A.java" "class A"],
   FsTree.dir "empty" [FsTree.file "notes.txt" "text"]]

/-- Witness for C2 at the concrete tree: the isomorphism and the
no-empty-directory-entry invariant hold for its mirror run. -/
theorem c2_witness :
    (genFolder [] tsDemo ∅).2 =
      insert [] ((menuPathsList [] (genFolder [] tsDemo ∅).1).toFinset) ∧
    noEmptyDirList (genFolder [] tsDemo ∅).1 = true :=
  c2_menu_isomorphic_to_output tsDemo (by decide)
